import Mathlib

/-!
# `opa check`: module acquisition, compilation and error reporting

A shallow embedding of `cmd/check.go` (`checkModules`, `outputErrors`).

* The package-level variable `checkParams` becomes an explicit argument.
* The collaborators that live outside `cmd/check.go` (`loader.AsBundle`,
  `loader.Filtered`, the `ast` compiler, `encoding/json`, the `Error()` method of
  error values) are the fields of an environment `Env`; every theorem quantifies
  over all environments.
* The loaders read the file system, so they thread an abstract world `W`.
* Standard output and standard error are the lists of the writes made to them.
* A ghost trace records the calls made, in program order.
-/

namespace Check

/-- The Go type `map[string]*ast.Module`: a finite map with unique keys and no order. -/
abbrev Modules (M : Type) : Type := Finmap (fun _ : String => M)

/-- Modelled from the spec: the type `bundle.ModuleFile` is declared outside `cmd/check.go`;
a bundle exposes (path, parsed-module) pairs, read here as `mf.Path` and `mf.Parsed`. -/
structure ModuleFile (M : Type) where
  Path : String
  Parsed : M

/-- Modelled from the spec: the type `bundle.Bundle` is declared outside `cmd/check.go`; a
bundle exposes an ordered sequence of module files, ranged over in order. -/
structure Bundle (M : Type) where
  Modules : List (ModuleFile M)

/-- Modelled from the spec: the type `loader.RegoFile` is declared outside `cmd/check.go`;
a loaded module has a declared name and a parsed syntax tree, read here as `m.Name` and
`m.Parsed`. -/
structure RegoFile (M : Type) where
  Name : String
  Parsed : M

/-- Modelled from the spec: the type `loader.Result` is declared outside `cmd/check.go`.
`Modules` is a Go map whose keys `checkModules` discards; the list holds its values in
the order in which `range` visits them in the run at hand. -/
structure Result (M : Type) where
  Modules : List (RegoFile M)

/-- Modelled from the spec: the struct `loaderFilter` is declared outside `cmd/check.go`;
it holds the ignore patterns, and its method `Apply` is handed to `loader.Filtered`. -/
structure loaderFilter where
  Ignore : List String
  deriving DecidableEq, Repr

/-- The package-level variable `checkParams`; `format` is `checkParams.format.String()`. -/
structure checkParams where
  format : String
  errLimit : Int
  ignore : List String
  bundleMode : Bool
  deriving DecidableEq, Repr

def checkFormatPretty : String := "pretty"

def checkFormatJSON : String := "json"

/-- The calls a run makes, recorded in program order. -/
inductive Call (M E : Type) where
  | AsBundle (path : String)
  | Filtered (args : List String) (f : loaderFilter)
  | NewCompiler
  | SetErrorLimit (limit : Int)
  | Compile (modules : Modules M)
  | Failed
  | outputErrors (err : E)

/-- The collaborators of `cmd/check.go`. `W` is the file system, `M` is `*ast.Module`,
`E` is the Go interface `error`, `C` is `*ast.Compiler`. -/
structure Env (W M E C : Type) where
  /-- `loader.AsBundle(path)`. -/
  AsBundle : W → String → Except E (Bundle M) × W
  /-- `loader.Filtered(args, f.Apply)`. -/
  Filtered : W → List String → loaderFilter → Except E (Result M) × W
  /-- `ast.NewCompiler()`. -/
  NewCompiler : C
  /-- `compiler.SetErrorLimit(limit)`. -/
  SetErrorLimit : C → Int → C
  /-- `compiler.Compile(modules)`. -/
  Compile : C → Modules M → C
  /-- `compiler.Failed()`. -/
  Failed : C → Bool
  /-- `compiler.Errors`, as a value of the interface `error`. -/
  Errors : C → E
  /-- The text `fmt` prints for an error value by default (the result of `Error()`). -/
  Error : E → String
  /-- `json.MarshalIndent(v, pfx, indent)` for a `map[string]error` given by its entries. -/
  MarshalIndent : List (String × E) → String → String → Except E String

/-- What a run can observe and change. -/
structure State (W M E : Type) where
  world : W
  trace : List (Call M E)
  stdout : List String
  stderr : List String

/-- The result of `checkModules`: the returned `int` and the state it leaves. -/
structure Run (W M E : Type) where
  code : Int
  state : State W M E

/-- `fmt.Fprintln(w, a)`: the default text of `a`, then a newline, in one write. -/
def Fprintln (w : List String) (a : String) : List String :=
  w ++ [a ++ "\n"]

section Code

variable {W M E C : Type}

/-- `func outputErrors(err error)`. -/
def outputErrors (env : Env W M E C) (p : checkParams) (err : E)
    (s : State W M E) : State W M E :=
  let s := { s with trace := s.trace ++ [Call.outputErrors err] }
  if p.format = checkFormatJSON then
    let result := [("errors", err)]
    match env.MarshalIndent result "" "  " with
    | Except.error err => { s with stderr := Fprintln s.stderr (env.Error err) }
    | Except.ok bs => { s with stdout := Fprintln s.stdout bs }
  else
    { s with stdout := Fprintln s.stdout (env.Error err) }

/-- The loop `for _, mf := range b.Modules { modules[mf.Path] = mf.Parsed }`. -/
def rangeBundle (b : Bundle M) (modules : Modules M) : Modules M :=
  b.Modules.foldl (fun acc mf => acc.insert mf.Path mf.Parsed) modules

/-- The loop `for _, m := range result.Modules { modules[m.Name] = m.Parsed }`. -/
def rangeResult (result : Result M) (modules : Modules M) : Modules M :=
  result.Modules.foldl (fun acc m => acc.insert m.Name m.Parsed) modules

/-- The loop `for _, path := range args` of bundle mode; `Except.error 1` is its
`return 1`. -/
def rangeArgs (env : Env W M E C) (p : checkParams) :
    List String → Modules M → State W M E → Except Int (Modules M) × State W M E
  | [], modules, s => (Except.ok modules, s)
  | path :: rest, modules, s =>
    let r := env.AsBundle s.world path
    let s := { s with world := r.2, trace := s.trace ++ [Call.AsBundle path] }
    match r.1 with
    | Except.error err => (Except.error 1, outputErrors env p err s)
    | Except.ok b => rangeArgs env p rest (rangeBundle b modules) s

/-- `func checkModules(args []string) int`. -/
def checkModules (env : Env W M E C) (p : checkParams) (args : List String)
    (s : State W M E) : Run W M E :=
  let modules : Modules M := ∅
  let loaded : Except Int (Modules M) × State W M E :=
    if p.bundleMode then
      rangeArgs env p args modules s
    else
      let f : loaderFilter := { Ignore := p.ignore }
      let r := env.Filtered s.world args f
      let s := { s with world := r.2, trace := s.trace ++ [Call.Filtered args f] }
      match r.1 with
      | Except.error err => (Except.error 1, outputErrors env p err s)
      | Except.ok result => (Except.ok (rangeResult result modules), s)
  match loaded with
  | (Except.error code, s) => { code := code, state := s }
  | (Except.ok modules, s) =>
    let compiler := env.SetErrorLimit env.NewCompiler p.errLimit
    let s := { s with trace := s.trace ++ [Call.NewCompiler, Call.SetErrorLimit p.errLimit] }
    let compiler := env.Compile compiler modules
    let s := { s with trace := s.trace ++ [Call.Compile modules] }
    let s := { s with trace := s.trace ++ [Call.Failed] }
    if !env.Failed compiler then
      { code := 0, state := s }
    else
      { code := 1, state := outputErrors env p (env.Errors compiler) s }

end Code

/-! ## Reading a run: projections of the trace and of the loader -/

section Reading

variable {W M E C : Type}

/-- The module collections handed to `Compile`, in call order. -/
def compiled (t : List (Call M E)) : List (Modules M) :=
  t.filterMap fun c =>
    match c with
    | Call.Compile modules => some modules
    | _ => none

/-- The error values handed to `outputErrors`, in call order. -/
def reported (t : List (Call M E)) : List E :=
  t.filterMap fun c =>
    match c with
    | Call.outputErrors err => some err
    | _ => none

/-- The paths handed to `loader.AsBundle`, in call order. -/
def bundlePaths (t : List (Call M E)) : List String :=
  t.filterMap fun c =>
    match c with
    | Call.AsBundle path => some path
    | _ => none

/-- Whether a call constructs, configures, runs or queries the compiler. -/
def Call.onCompiler : Call M E → Bool
  | Call.NewCompiler => true
  | Call.SetErrorLimit _ => true
  | Call.Compile _ => true
  | Call.Failed => true
  | _ => false

/-- The compiler calls of a trace. -/
def compilerCalls (t : List (Call M E)) : List (Call M E) :=
  t.filter Call.onCompiler

/-- What `loader.AsBundle` returns for each path when the paths are loaded one after the
other, each from the world the previous load left. -/
def loadAllBundles (env : Env W M E C) : W → List String → List (Except E (Bundle M))
  | _, [] => []
  | w, path :: rest =>
    (env.AsBundle w path).1 :: loadAllBundles env (env.AsBundle w path).2 rest

/-- The world left by loading the paths one after the other. -/
def worldAfter (env : Env W M E C) : W → List String → W
  | w, [] => w
  | w, path :: rest => worldAfter env (env.AsBundle w path).2 rest

/-- The first error of a list of load results, if there is one. -/
def firstError {β : Type} : List (Except E β) → Option E
  | [] => none
  | Except.error e :: _ => some e
  | Except.ok _ :: rest => firstError rest

/-- The error that makes loading fail: in bundle mode the error of the first path that
does not load, in filtered mode the error `loader.Filtered` returns; `none` when loading
succeeds. -/
def loadError (env : Env W M E C) (p : checkParams) (w : W) (args : List String) :
    Option E :=
  if p.bundleMode then firstError (loadAllBundles env w args)
  else
    match (env.Filtered w args { Ignore := p.ignore }).1 with
    | Except.error e => some e
    | Except.ok _ => none

/-- Whether loading succeeds: every path loads as a bundle (bundle mode), or the
filtered load returns no error (filtered mode). -/
def loadingSucceeded (env : Env W M E C) (p : checkParams) (w : W) (args : List String) :
    Bool :=
  if p.bundleMode then (loadAllBundles env w args).all Except.isOk
  else (env.Filtered w args { Ignore := p.ignore }).1.isOk

/-- The text a stream received between two of its states. -/
def received (before after : List String) : String :=
  String.join (after.drop before.length)

/-- Assigning `modules[key x] = val x` for each `x` of a list, in list order. -/
def assignAll {α : Type} (key : α → String) (val : α → M) (l : List α)
    (modules : Modules M) : Modules M :=
  l.foldl (fun acc x => acc.insert (key x) (val x)) modules

/-- The module files of a list of bundles: bundle after bundle, each in its own order. -/
def allModuleFiles (bs : List (Bundle M)) : List (ModuleFile M) :=
  (bs.map Bundle.Modules).flatten

/-- Lines 85 to 95 of `checkModules`, run on the modules and the state loading left. -/
def compileAndReport (env : Env W M E C) (p : checkParams) (modules : Modules M)
    (s : State W M E) : Run W M E :=
  let c := env.Compile (env.SetErrorLimit env.NewCompiler p.errLimit) modules
  let s1 : State W M E :=
    { s with trace := s.trace ++ [Call.NewCompiler, Call.SetErrorLimit p.errLimit,
                                  Call.Compile modules, Call.Failed] }
  if env.Failed c then { code := 1, state := outputErrors env p (env.Errors c) s1 }
  else { code := 0, state := s1 }

/-- The state `t` is `s` after the loader calls `calls`: the streams are those of `s`, and
the calls involve neither the compiler nor the reporter. -/
def loadedFrom (s t : State W M E) (calls : List (Call M E)) : Prop :=
  t.trace = s.trace ++ calls ∧ t.stdout = s.stdout ∧ t.stderr = s.stderr ∧
  compiled calls = [] ∧ reported calls = [] ∧ compilerCalls calls = []

end Reading

/-! ## A concrete environment -/

section Demo

/-- A small file system and compiler: the path `missing` does not load, the module
`broken.rego` does not compile, error values are of a string kind (their own message),
so `map[string]error` serialises each value as a JSON string. The world counts loader
calls. -/
def demoEnv : Env Nat String String (List String) where
  AsBundle := fun w path =>
    if path = "missing" then (Except.error "open missing: no such file or directory", w + 1)
    else (Except.ok { Modules := [{ Path := path ++ "/a.rego", Parsed := "package a" },
                                  { Path := "common.rego", Parsed := "package " ++ path }] },
          w + 1)
  Filtered := fun w args _ =>
    if "missing" ∈ args then
      (Except.error "open missing: no such file or directory", w + 1)
    else (Except.ok { Modules := args.map fun a => { Name := a, Parsed := "package x" } },
          w + 1)
  NewCompiler := []
  SetErrorLimit := fun c _ => c
  Compile := fun c modules =>
    match modules.lookup "broken.rego" with
    | some _ => c ++ ["rego_type_error: undefined function"]
    | none => c
  Failed := fun c => !c.isEmpty
  Errors := fun c => String.intercalate "\n" c
  Error := fun e => e
  MarshalIndent := fun v pfx indent =>
    Except.ok ("\x7b\n" ++
      String.intercalate ",\n"
        (v.map fun kv => pfx ++ indent ++ "\"" ++ kv.1 ++ "\": \"" ++ kv.2 ++ "\"") ++
      "\n" ++ pfx ++ "\x7d")

/-- The state a process starts in: nothing called, nothing written. -/
def demoStart : State Nat String String :=
  { world := 0, trace := [], stdout := [], stderr := [] }

def demoPretty : checkParams :=
  { format := "pretty", errLimit := 10, ignore := [], bundleMode := false }

def demoJSON : checkParams :=
  { format := "json", errLimit := 10, ignore := [], bundleMode := false }

def demoBundlePretty : checkParams :=
  { format := "pretty", errLimit := 10, ignore := [], bundleMode := true }

end Demo

/-! ## Lemmas on the trace projections -/

section TraceLemmas

variable {M E : Type}

theorem compiled_append (a b : List (Call M E)) :
    compiled (a ++ b) = compiled a ++ compiled b := by
  simp [compiled, List.filterMap_append]

theorem reported_append (a b : List (Call M E)) :
    reported (a ++ b) = reported a ++ reported b := by
  simp [reported, List.filterMap_append]

theorem bundlePaths_append (a b : List (Call M E)) :
    bundlePaths (a ++ b) = bundlePaths a ++ bundlePaths b := by
  simp [bundlePaths, List.filterMap_append]

theorem compilerCalls_append (a b : List (Call M E)) :
    compilerCalls (a ++ b) = compilerCalls a ++ compilerCalls b := by
  simp [compilerCalls, List.filter_append]

theorem compiled_asBundle (l : List String) :
    compiled (l.map (Call.AsBundle : String → Call M E)) = [] := by
  induction l with
  | nil => rfl
  | cons a t _ => simp [compiled, List.filterMap_cons]

theorem reported_asBundle (l : List String) :
    reported (l.map (Call.AsBundle : String → Call M E)) = [] := by
  induction l with
  | nil => rfl
  | cons a t _ => simp [reported, List.filterMap_cons]

theorem compilerCalls_asBundle (l : List String) :
    compilerCalls (l.map (Call.AsBundle : String → Call M E)) = [] := by
  induction l with
  | nil => rfl
  | cons a t _ => simp [compilerCalls, List.filter_cons, Call.onCompiler]

theorem bundlePaths_asBundle (l : List String) :
    bundlePaths (l.map (Call.AsBundle : String → Call M E)) = l := by
  induction l with
  | nil => rfl
  | cons a t ih => simpa [bundlePaths, List.filterMap_cons] using ih

end TraceLemmas

/-! ## Lemmas on `outputErrors` -/

section OutputLemmas

variable {W M E C : Type}

theorem outputErrors_trace (env : Env W M E C) (p : checkParams) (err : E)
    (s : State W M E) :
    (outputErrors env p err s).trace = s.trace ++ [Call.outputErrors err] := by
  unfold outputErrors
  dsimp only
  split
  · split <;> rfl
  · rfl

theorem outputErrors_marshal_ok (env : Env W M E C) (p : checkParams) (err : E)
    (s : State W M E) (bs : String) (hf : p.format = checkFormatJSON)
    (hm : env.MarshalIndent [("errors", err)] "" "  " = Except.ok bs) :
    (outputErrors env p err s).stdout = s.stdout ++ [bs ++ "\n"] ∧
    (outputErrors env p err s).stderr = s.stderr := by
  unfold outputErrors
  simp [hf, hm, Fprintln]

theorem outputErrors_marshal_error (env : Env W M E C) (p : checkParams) (err : E)
    (s : State W M E) (e : E) (hf : p.format = checkFormatJSON)
    (hm : env.MarshalIndent [("errors", err)] "" "  " = Except.error e) :
    (outputErrors env p err s).stdout = s.stdout ∧
    (outputErrors env p err s).stderr = s.stderr ++ [env.Error e ++ "\n"] := by
  unfold outputErrors
  simp [hf, hm, Fprintln]

theorem outputErrors_default (env : Env W M E C) (p : checkParams) (err : E)
    (s : State W M E) (hf : p.format ≠ checkFormatJSON) :
    (outputErrors env p err s).stdout = s.stdout ++ [env.Error err ++ "\n"] ∧
    (outputErrors env p err s).stderr = s.stderr := by
  unfold outputErrors
  simp [hf, Fprintln]

/-- The streams `outputErrors` leaves depend on the state only through its streams. -/
theorem outputErrors_streams (env : Env W M E C) (p : checkParams) (err : E)
    (s t : State W M E) (ho : s.stdout = t.stdout) (he : s.stderr = t.stderr) :
    (outputErrors env p err s).stdout = (outputErrors env p err t).stdout ∧
    (outputErrors env p err s).stderr = (outputErrors env p err t).stderr := by
  unfold outputErrors
  dsimp only
  split
  · split <;> simp [ho, he]
  · simp [ho, he]

end OutputLemmas

/-! ## Lemmas on the loops -/

section LoopLemmas

variable {W M E C : Type}

theorem rangeBundle_eq (b : Bundle M) (modules : Modules M) :
    rangeBundle b modules = assignAll ModuleFile.Path ModuleFile.Parsed b.Modules modules :=
  rfl

theorem rangeResult_eq (r : Result M) (modules : Modules M) :
    rangeResult r modules = assignAll RegoFile.Name RegoFile.Parsed r.Modules modules :=
  rfl

theorem assignAll_append {α : Type} (key : α → String) (val : α → M) (l₁ l₂ : List α)
    (modules : Modules M) :
    assignAll key val (l₁ ++ l₂) modules = assignAll key val l₂ (assignAll key val l₁ modules) := by
  simp [assignAll, List.foldl_append]

/-- The value a key has after a sequence of assignments is that of the last assignment
to the key, or the value it had before when no assignment is to the key. -/
theorem lookup_assignAll {α : Type} (key : α → String) (val : α → M) (l : List α)
    (modules : Modules M) (k : String) (v : M) :
    (assignAll key val l modules).lookup k = some v ↔
      (∃ pre x post, l = pre ++ x :: post ∧ key x = k ∧ val x = v ∧
        ∀ y ∈ post, key y ≠ k) ∨
      ((∀ y ∈ l, key y ≠ k) ∧ modules.lookup k = some v) := by
  induction l generalizing modules with
  | nil => simp [assignAll]
  | cons a t ih =>
    have hstep : assignAll key val (a :: t) modules
        = assignAll key val t (modules.insert (key a) (val a)) := rfl
    rw [hstep, ih]
    constructor
    · rintro (⟨pre, x, post, ht, hx, hv, hpost⟩ | ⟨hno, hl⟩)
      · exact Or.inl ⟨a :: pre, x, post, by simp [ht], hx, hv, hpost⟩
      · by_cases hk : key a = k
        · subst hk
          rw [Finmap.lookup_insert] at hl
          exact Or.inl ⟨[], a, t, rfl, rfl, Option.some.inj hl, hno⟩
        · rw [Finmap.lookup_insert_of_ne _ (Ne.symm hk)] at hl
          refine Or.inr ⟨?_, hl⟩
          intro y hy
          rcases List.mem_cons.1 hy with h | h
          · subst h; exact hk
          · exact hno y h
    · rintro (⟨pre, x, post, ht, hx, hv, hpost⟩ | ⟨hno, hl⟩)
      · cases pre with
        | nil =>
          simp only [List.nil_append, List.cons.injEq] at ht
          obtain ⟨ha, htt⟩ := ht
          subst ha; subst htt; subst hx; subst hv
          exact Or.inr ⟨hpost, Finmap.lookup_insert _⟩
        | cons b pre' =>
          simp only [List.cons_append, List.cons.injEq] at ht
          exact Or.inl ⟨pre', x, post, ht.2, hx, hv, hpost⟩
      · have hk : key a ≠ k := hno a (List.mem_cons_self _ _)
        refine Or.inr ⟨fun y hy => hno y (List.mem_cons_of_mem _ hy), ?_⟩
        rw [Finmap.lookup_insert_of_ne _ (Ne.symm hk)]
        exact hl

/-- A key is in the map after a sequence of assignments exactly when it is assigned or
was there before. -/
theorem mem_assignAll {α : Type} (key : α → String) (val : α → M) (l : List α)
    (modules : Modules M) (k : String) :
    k ∈ assignAll key val l modules ↔ (∃ x ∈ l, key x = k) ∨ k ∈ modules := by
  induction l generalizing modules with
  | nil => simp [assignAll]
  | cons a t ih =>
    have hstep : assignAll key val (a :: t) modules
        = assignAll key val t (modules.insert (key a) (val a)) := rfl
    rw [hstep, ih, Finmap.mem_insert]
    constructor
    · rintro (⟨x, hx, hk⟩ | h | h)
      · exact Or.inl ⟨x, List.mem_cons_of_mem _ hx, hk⟩
      · exact Or.inl ⟨a, List.mem_cons_self _ _, h.symm⟩
      · exact Or.inr h
    · rintro (⟨x, hx, hk⟩ | h)
      · rcases List.mem_cons.1 hx with h | h
        · subst h; exact Or.inr (Or.inl hk.symm)
        · exact Or.inl ⟨x, h, hk⟩
      · exact Or.inr (Or.inr h)

/-- With pairwise distinct keys, the entries after the assignments to an empty map are
exactly the assigned ones. -/
theorem lookup_assignAll_nodup {α : Type} (key : α → String) (val : α → M) (l : List α)
    (hn : (l.map key).Nodup) (k : String) (v : M) :
    (assignAll key val l (∅ : Modules M)).lookup k = some v ↔
      ∃ x ∈ l, key x = k ∧ val x = v := by
  rw [lookup_assignAll]
  constructor
  · rintro (⟨pre, x, post, hl, hx, hv, _⟩ | ⟨_, hl⟩)
    · exact ⟨x, by rw [hl]; simp, hx, hv⟩
    · simp at hl
  · rintro ⟨x, hmem, hx, hv⟩
    obtain ⟨pre, post, hl⟩ := List.append_of_mem hmem
    refine Or.inl ⟨pre, x, post, hl, hx, hv, ?_⟩
    intro y hy hyk
    rw [hl, List.map_append, List.map_cons] at hn
    have h2 := (List.nodup_append.1 hn).2.1
    have h3 := (List.nodup_cons.1 h2).1
    have h4 : key y ∈ post.map key := List.mem_map_of_mem key hy
    rw [hyk, ← hx] at h4
    exact h3 h4

/-- With pairwise distinct keys, the order of the assignments does not matter. -/
theorem assignAll_perm {α : Type} (key : α → String) (val : α → M) (l₁ l₂ : List α)
    (hp : l₁.Perm l₂) (hn : (l₁.map key).Nodup) :
    assignAll key val l₁ (∅ : Modules M) = assignAll key val l₂ ∅ := by
  have hn2 : (l₂.map key).Nodup := (hp.map key).nodup_iff.1 hn
  apply Finmap.ext_lookup
  intro k
  apply Option.ext
  intro v
  simp only [Option.mem_def]
  rw [lookup_assignAll_nodup key val l₁ hn, lookup_assignAll_nodup key val l₂ hn2]
  constructor
  · rintro ⟨x, hx, h⟩
    exact ⟨x, hp.mem_iff.1 hx, h⟩
  · rintro ⟨x, hx, h⟩
    exact ⟨x, hp.mem_iff.2 hx, h⟩

/-- Every list of load results is a run of successes, or a run of successes followed by
a first error. -/
theorem loads_split {β : Type} (l : List (Except E β)) :
    (∃ bs : List β, l = bs.map Except.ok ∧ firstError l = none) ∨
    (∃ (bs : List β) (e : E) (post : List (Except E β)),
      l = bs.map Except.ok ++ Except.error e :: post ∧ firstError l = some e) := by
  induction l with
  | nil => exact Or.inl ⟨[], rfl, rfl⟩
  | cons a t ih =>
    cases a with
    | error e => exact Or.inr ⟨[], e, t, rfl, rfl⟩
    | ok b =>
      rcases ih with ⟨bs, ht, hf⟩ | ⟨bs, e, post, ht, hf⟩
      · exact Or.inl ⟨b :: bs, by simp [ht], by simpa [firstError] using hf⟩
      · exact Or.inr ⟨b :: bs, e, post, by simp [ht], by simpa [firstError] using hf⟩

theorem firstError_map_ok {β : Type} (bs : List β) :
    firstError (bs.map (Except.ok : β → Except E β)) = none := by
  induction bs with
  | nil => rfl
  | cons b t ih => simpa [firstError] using ih

theorem map_ok_injective {β : Type} (bs bs' : List β)
    (h : bs.map (Except.ok : β → Except E β) = bs'.map Except.ok) : bs = bs' := by
  induction bs generalizing bs' with
  | nil =>
    cases bs' with
    | nil => rfl
    | cons b t => simp at h
  | cons a t ih =>
    cases bs' with
    | nil => simp at h
    | cons b t' =>
      simp only [List.map_cons, List.cons.injEq, Except.ok.injEq] at h
      rw [h.1, ih t' h.2]

theorem rangeArgs_ok (env : Env W M E C) (p : checkParams) (args : List String)
    (bs : List (Bundle M)) (modules : Modules M) (s : State W M E)
    (h : loadAllBundles env s.world args = bs.map Except.ok) :
    rangeArgs env p args modules s =
      (Except.ok (assignAll ModuleFile.Path ModuleFile.Parsed (allModuleFiles bs) modules),
       { s with world := worldAfter env s.world args,
                trace := s.trace ++ args.map Call.AsBundle }) := by
  induction args generalizing bs modules s with
  | nil =>
    cases bs with
    | nil => simp [rangeArgs, worldAfter, assignAll, allModuleFiles]
    | cons b bs' => simp [loadAllBundles] at h
  | cons path rest ih =>
    cases bs with
    | nil => simp [loadAllBundles] at h
    | cons b bs' =>
      simp only [loadAllBundles, List.map_cons, List.cons.injEq] at h
      obtain ⟨h1, h2⟩ := h
      unfold rangeArgs
      simp only [h1]
      rw [ih bs' _ _ h2]
      simp [worldAfter, rangeBundle_eq, assignAll_append, allModuleFiles, List.append_assoc]

theorem rangeArgs_error (env : Env W M E C) (p : checkParams) (args : List String)
    (bs : List (Bundle M)) (e : E) (post : List (Except E (Bundle M)))
    (modules : Modules M) (s : State W M E)
    (h : loadAllBundles env s.world args = bs.map Except.ok ++ Except.error e :: post) :
    rangeArgs env p args modules s =
      (Except.error 1,
       outputErrors env p e
         { s with world := worldAfter env s.world (args.take (bs.length + 1)),
                  trace := s.trace ++ (args.take (bs.length + 1)).map Call.AsBundle }) := by
  induction args generalizing bs modules s with
  | nil => simp [loadAllBundles] at h
  | cons path rest ih =>
    cases bs with
    | nil =>
      simp only [loadAllBundles, List.map_nil, List.nil_append, List.cons.injEq] at h
      obtain ⟨h1, _⟩ := h
      unfold rangeArgs
      simp [h1, worldAfter]
    | cons b bs' =>
      simp only [loadAllBundles, List.map_cons, List.cons_append, List.cons.injEq] at h
      obtain ⟨h1, h2⟩ := h
      unfold rangeArgs
      simp only [h1]
      rw [ih bs' _ _ h2]
      simp [worldAfter, List.append_assoc]

end LoopLemmas

/-! ## The four ways a run of `checkModules` can go -/

section Runs

variable {W M E C : Type}

theorem checkModules_bundle_ok (env : Env W M E C) (p : checkParams) (args : List String)
    (s : State W M E) (bs : List (Bundle M)) (hb : p.bundleMode = true)
    (h : loadAllBundles env s.world args = bs.map Except.ok) :
    checkModules env p args s =
      compileAndReport env p
        (assignAll ModuleFile.Path ModuleFile.Parsed (allModuleFiles bs) ∅)
        { s with world := worldAfter env s.world args,
                 trace := s.trace ++ args.map Call.AsBundle } := by
  unfold checkModules compileAndReport
  simp only [hb, if_true, rangeArgs_ok env p args bs ∅ s h]
  cases hF : env.Failed (env.Compile (env.SetErrorLimit env.NewCompiler p.errLimit)
      (assignAll ModuleFile.Path ModuleFile.Parsed (allModuleFiles bs) ∅)) <;>
    simp [hF, List.append_assoc]

theorem checkModules_bundle_error (env : Env W M E C) (p : checkParams)
    (args : List String) (s : State W M E) (bs : List (Bundle M)) (e : E)
    (post : List (Except E (Bundle M))) (hb : p.bundleMode = true)
    (h : loadAllBundles env s.world args = bs.map Except.ok ++ Except.error e :: post) :
    checkModules env p args s =
      { code := 1,
        state := outputErrors env p e
          { s with world := worldAfter env s.world (args.take (bs.length + 1)),
                   trace := s.trace ++ (args.take (bs.length + 1)).map Call.AsBundle } } := by
  unfold checkModules
  simp only [hb, if_true, rangeArgs_error env p args bs e post ∅ s h]

theorem checkModules_filtered_ok (env : Env W M E C) (p : checkParams)
    (args : List String) (s : State W M E) (result : Result M)
    (hb : p.bundleMode = false)
    (h : (env.Filtered s.world args { Ignore := p.ignore }).1 = Except.ok result) :
    checkModules env p args s =
      compileAndReport env p
        (assignAll RegoFile.Name RegoFile.Parsed result.Modules ∅)
        { s with world := (env.Filtered s.world args { Ignore := p.ignore }).2,
                 trace := s.trace ++ [Call.Filtered args { Ignore := p.ignore }] } := by
  unfold checkModules compileAndReport
  simp only [hb, h, rangeResult_eq]
  cases hF : env.Failed (env.Compile (env.SetErrorLimit env.NewCompiler p.errLimit)
      (assignAll RegoFile.Name RegoFile.Parsed result.Modules ∅)) <;>
    simp [hF, List.append_assoc]

theorem checkModules_filtered_error (env : Env W M E C) (p : checkParams)
    (args : List String) (s : State W M E) (e : E) (hb : p.bundleMode = false)
    (h : (env.Filtered s.world args { Ignore := p.ignore }).1 = Except.error e) :
    checkModules env p args s =
      { code := 1,
        state := outputErrors env p e
          { s with world := (env.Filtered s.world args { Ignore := p.ignore }).2,
                   trace := s.trace ++ [Call.Filtered args { Ignore := p.ignore }] } } := by
  unfold checkModules
  simp only [hb, h]
  simp

/-- When loading fails the run is the report of the load error, made right after the
loader calls. -/
theorem checkModules_of_loadError (env : Env W M E C) (p : checkParams)
    (args : List String) (s : State W M E) (e : E)
    (h : loadError env p s.world args = some e) :
    ∃ (t : State W M E) (calls : List (Call M E)),
      loadedFrom s t calls ∧
      checkModules env p args s = { code := 1, state := outputErrors env p e t } := by
  unfold loadError at h
  cases hb : p.bundleMode with
  | true =>
    simp only [hb, if_true] at h
    rcases loads_split (loadAllBundles env s.world args) with ⟨bs, _, hf⟩ | ⟨bs, e', post, hl, hf⟩
    · rw [hf] at h; cases h
    · rw [hf] at h
      cases h
      refine ⟨_, (args.take (bs.length + 1)).map Call.AsBundle, ?_,
        checkModules_bundle_error env p args s bs e post hb hl⟩
      exact ⟨rfl, rfl, rfl, compiled_asBundle _, reported_asBundle _,
        compilerCalls_asBundle _⟩
  | false =>
    simp only [hb] at h
    cases hr : (env.Filtered s.world args { Ignore := p.ignore }).1 with
    | ok result => simp [hr] at h
    | error e' =>
      simp [hr] at h
      subst h
      refine ⟨_, [Call.Filtered args { Ignore := p.ignore }], ?_,
        checkModules_filtered_error env p args s e' hb hr⟩
      exact ⟨rfl, rfl, rfl, rfl, rfl, rfl⟩

/-- When loading succeeds the run is lines 85 to 95 on some module collection, right
after the loader calls. -/
theorem checkModules_of_loaded (env : Env W M E C) (p : checkParams)
    (args : List String) (s : State W M E)
    (h : loadError env p s.world args = none) :
    ∃ (t : State W M E) (calls : List (Call M E)) (modules : Modules M),
      loadedFrom s t calls ∧
      checkModules env p args s = compileAndReport env p modules t := by
  unfold loadError at h
  cases hb : p.bundleMode with
  | true =>
    simp only [hb, if_true] at h
    rcases loads_split (loadAllBundles env s.world args) with ⟨bs, hl, _⟩ | ⟨bs, e', post, _, hf⟩
    · refine ⟨_, args.map Call.AsBundle, _, ?_,
        checkModules_bundle_ok env p args s bs hb hl⟩
      exact ⟨rfl, rfl, rfl, compiled_asBundle _, reported_asBundle _,
        compilerCalls_asBundle _⟩
    · rw [hf] at h; cases h
  | false =>
    simp only [hb] at h
    cases hr : (env.Filtered s.world args { Ignore := p.ignore }).1 with
    | error e' => simp [hr] at h
    | ok result =>
      refine ⟨_, [Call.Filtered args { Ignore := p.ignore }], _, ?_,
        checkModules_filtered_ok env p args s result hb hr⟩
      exact ⟨rfl, rfl, rfl, rfl, rfl, rfl⟩

theorem compileAndReport_ok (env : Env W M E C) (p : checkParams) (modules : Modules M)
    (t : State W M E)
    (hf : env.Failed (env.Compile (env.SetErrorLimit env.NewCompiler p.errLimit) modules)
      = false) :
    compileAndReport env p modules t =
      { code := 0,
        state := { t with trace := t.trace ++ [Call.NewCompiler,
          Call.SetErrorLimit p.errLimit, Call.Compile modules, Call.Failed] } } := by
  unfold compileAndReport
  simp [hf]

theorem compileAndReport_failed (env : Env W M E C) (p : checkParams)
    (modules : Modules M) (t : State W M E)
    (hf : env.Failed (env.Compile (env.SetErrorLimit env.NewCompiler p.errLimit) modules)
      = true) :
    compileAndReport env p modules t =
      { code := 1,
        state := outputErrors env p
          (env.Errors (env.Compile (env.SetErrorLimit env.NewCompiler p.errLimit) modules))
          { t with trace := t.trace ++ [Call.NewCompiler,
            Call.SetErrorLimit p.errLimit, Call.Compile modules, Call.Failed] } } := by
  unfold compileAndReport
  simp [hf]

theorem compileAndReport_compiled (env : Env W M E C) (p : checkParams)
    (modules : Modules M) (t : State W M E) :
    compiled (compileAndReport env p modules t).state.trace
      = compiled t.trace ++ [modules] := by
  cases hf : env.Failed (env.Compile (env.SetErrorLimit env.NewCompiler p.errLimit) modules)
  · rw [compileAndReport_ok env p modules t hf]
    simp [compiled, List.filterMap_append, List.filterMap_cons]
  · rw [compileAndReport_failed env p modules t hf]
    simp [outputErrors_trace, compiled, List.filterMap_append, List.filterMap_cons]

theorem loadingSucceeded_iff (env : Env W M E C) (p : checkParams) (w : W)
    (args : List String) :
    loadingSucceeded env p w args = true ↔ loadError env p w args = none := by
  unfold loadingSucceeded loadError
  cases p.bundleMode with
  | true =>
    simp only [if_true]
    generalize loadAllBundles env w args = l
    induction l with
    | nil => simp [firstError]
    | cons a t ih =>
      cases a with
      | error e => simp [firstError, Except.isOk, Except.toBool]
      | ok b => simpa [firstError, Except.isOk, Except.toBool] using ih
  | false =>
    simp only [Bool.false_eq_true, if_false]
    cases (env.Filtered w args { Ignore := p.ignore }).1 <;>
      simp [Except.isOk, Except.toBool]

theorem append_newline_ne_empty (a : String) : a ++ "\n" ≠ "" := by
  intro h
  have hlen := congrArg String.length h
  rw [String.length_append] at hlen
  have h1 : "\n".length = 1 := rfl
  have h0 : "".length = 0 := rfl
  omega

end Runs

/-! ## The claims -/

section Claims

variable {W M E C : Type}

/-- C1: `checkModules` returns 0 or 1, and it returns 0 exactly when loading succeeded
(every path loaded as a bundle in bundle mode, the filtered load returned no error in
filtered mode) and `Failed()` is false on the compiler after `Compile` of the loaded
collection; in every other case it returns 1. The condition is read from the loader and
the compiler alone, and the loaded collection is the one `Compile` is called on. -/
theorem checkModules_exit_status (env : Env W M E C) (p : checkParams)
    (args : List String) (s : State W M E) :
    ((checkModules env p args s).code = 0 ∨ (checkModules env p args s).code = 1) ∧
    ((checkModules env p args s).code = 0 ↔
      (p.bundleMode = true ∧ ∃ bs : List (Bundle M),
        loadAllBundles env s.world args = bs.map Except.ok ∧
        env.Failed (env.Compile (env.SetErrorLimit env.NewCompiler p.errLimit)
          (assignAll ModuleFile.Path ModuleFile.Parsed (allModuleFiles bs) ∅)) = false) ∨
      (p.bundleMode = false ∧ ∃ result : Result M,
        (env.Filtered s.world args { Ignore := p.ignore }).1 = Except.ok result ∧
        env.Failed (env.Compile (env.SetErrorLimit env.NewCompiler p.errLimit)
          (assignAll RegoFile.Name RegoFile.Parsed result.Modules ∅)) = false)) ∧
    (∀ bs : List (Bundle M), p.bundleMode = true →
      loadAllBundles env s.world args = bs.map Except.ok →
      compiled (checkModules env p args s).state.trace = compiled s.trace ++
        [assignAll ModuleFile.Path ModuleFile.Parsed (allModuleFiles bs) ∅]) ∧
    (∀ result : Result M, p.bundleMode = false →
      (env.Filtered s.world args { Ignore := p.ignore }).1 = Except.ok result →
      compiled (checkModules env p args s).state.trace = compiled s.trace ++
        [assignAll RegoFile.Name RegoFile.Parsed result.Modules ∅]) := by
  have h3 : ∀ bs : List (Bundle M), p.bundleMode = true →
      loadAllBundles env s.world args = bs.map Except.ok →
      compiled (checkModules env p args s).state.trace = compiled s.trace ++
        [assignAll ModuleFile.Path ModuleFile.Parsed (allModuleFiles bs) ∅] := by
    intro bs hb h
    rw [checkModules_bundle_ok env p args s bs hb h, compileAndReport_compiled]
    show compiled (s.trace ++ _) ++ _ = _
    rw [compiled_append, compiled_asBundle, List.append_nil]
  have h4 : ∀ result : Result M, p.bundleMode = false →
      (env.Filtered s.world args { Ignore := p.ignore }).1 = Except.ok result →
      compiled (checkModules env p args s).state.trace = compiled s.trace ++
        [assignAll RegoFile.Name RegoFile.Parsed result.Modules ∅] := by
    intro result hb h
    rw [checkModules_filtered_ok env p args s result hb h, compileAndReport_compiled]
    show compiled (s.trace ++ _) ++ _ = _
    rw [compiled_append]
    simp [compiled]
  refine ⟨?_, ?_, h3, h4⟩
  · cases hl : loadError env p s.world args with
    | some e =>
      obtain ⟨t, calls, _, hrun⟩ := checkModules_of_loadError env p args s e hl
      rw [hrun]
      exact Or.inr rfl
    | none =>
      obtain ⟨t, calls, modules, _, hrun⟩ := checkModules_of_loaded env p args s hl
      rw [hrun]
      cases hf : env.Failed
          (env.Compile (env.SetErrorLimit env.NewCompiler p.errLimit) modules)
      · rw [compileAndReport_ok env p modules t hf]
        exact Or.inl rfl
      · rw [compileAndReport_failed env p modules t hf]
        exact Or.inr rfl
  · cases hb : p.bundleMode with
    | true =>
      rcases loads_split (loadAllBundles env s.world args) with
        ⟨bs, hl, _⟩ | ⟨bs, e, post, hl, hfe⟩
      · have hrun := checkModules_bundle_ok env p args s bs hb hl
        cases hf : env.Failed (env.Compile (env.SetErrorLimit env.NewCompiler p.errLimit)
            (assignAll ModuleFile.Path ModuleFile.Parsed (allModuleFiles bs) ∅))
        · rw [hrun, compileAndReport_ok env p _ _ hf]
          exact ⟨fun _ => Or.inl ⟨rfl, bs, hl, hf⟩, fun _ => rfl⟩
        · rw [hrun, compileAndReport_failed env p _ _ hf]
          constructor
          · intro h
            exact absurd (show (1 : Int) = 0 from h) (by decide)
          · rintro (⟨_, bs', hl', hf'⟩ | ⟨h, _⟩)
            · have hbs : bs' = bs := map_ok_injective bs' bs (hl'.symm.trans hl)
              subst hbs
              rw [hf] at hf'
              cases hf'
            · cases h
      · rw [checkModules_bundle_error env p args s bs e post hb hl]
        constructor
        · intro h
          exact absurd (show (1 : Int) = 0 from h) (by decide)
        · rintro (⟨_, bs', hl', _⟩ | ⟨h, _⟩)
          · rw [hl', firstError_map_ok] at hfe
            cases hfe
          · cases h
    | false =>
      cases hr : (env.Filtered s.world args { Ignore := p.ignore }).1 with
      | ok result =>
        have hrun := checkModules_filtered_ok env p args s result hb hr
        cases hf : env.Failed (env.Compile (env.SetErrorLimit env.NewCompiler p.errLimit)
            (assignAll RegoFile.Name RegoFile.Parsed result.Modules ∅))
        · rw [hrun, compileAndReport_ok env p _ _ hf]
          exact ⟨fun _ => Or.inr ⟨rfl, result, rfl, hf⟩, fun _ => rfl⟩
        · rw [hrun, compileAndReport_failed env p _ _ hf]
          constructor
          · intro h
            exact absurd (show (1 : Int) = 0 from h) (by decide)
          · rintro (⟨h, _⟩ | ⟨_, result', hr', hf'⟩)
            · cases h
            · cases hr'
              rw [hf] at hf'
              cases hf'
      | error e =>
        rw [checkModules_filtered_error env p args s e hb hr]
        constructor
        · intro h
          exact absurd (show (1 : Int) = 0 from h) (by decide)
        · rintro (⟨h, _⟩ | ⟨_, result', hr', _⟩)
          · cases h
          · cases hr'

theorem checkModules_exit_status_witness :
    (checkModules demoEnv demoJSON ["a.rego", "b.rego"] demoStart).code = 0 ∧
    (checkModules demoEnv demoBundlePretty ["x", "y"] demoStart).code = 0 ∧
    (checkModules demoEnv demoPretty ["a.rego", "broken.rego"] demoStart).code = 1 ∧
    compiled (checkModules demoEnv demoJSON ["a.rego", "b.rego"] demoStart).state.trace
      = compiled demoStart.trace ++
        [((∅ : Modules String).insert "a.rego" "package x").insert "b.rego" "package x"] :=
  ⟨(checkModules_exit_status demoEnv demoJSON ["a.rego", "b.rego"] demoStart).2.1.2
      (Or.inr ⟨rfl,
        { Modules := [{ Name := "a.rego", Parsed := "package x" },
                      { Name := "b.rego", Parsed := "package x" }] }, rfl, by decide⟩),
   (checkModules_exit_status demoEnv demoBundlePretty ["x", "y"] demoStart).2.1.2
      (Or.inl ⟨rfl,
        [{ Modules := [{ Path := "x/a.rego", Parsed := "package a" },
                       { Path := "common.rego", Parsed := "package x" }] },
         { Modules := [{ Path := "y/a.rego", Parsed := "package a" },
                       { Path := "common.rego", Parsed := "package y" }] }],
        rfl, by decide⟩),
   ((checkModules_exit_status demoEnv demoPretty ["a.rego", "broken.rego"]
      demoStart).1.resolve_left
      (fun h0 =>
        absurd ((checkModules_exit_status demoEnv demoPretty ["a.rego", "broken.rego"]
          demoStart).2.1.1 h0) (by
            rintro (⟨h, _⟩ | ⟨_, result, hr, hf⟩)
            · cases h
            · cases hr
              revert hf
              decide))),
   (checkModules_exit_status demoEnv demoJSON ["a.rego", "b.rego"] demoStart).2.2.2
      { Modules := [{ Name := "a.rego", Parsed := "package x" },
                    { Name := "b.rego", Parsed := "package x" }] } rfl rfl⟩

/-- C2: in both loading modes, when loading fails with error `e` the compiler is never
constructed or invoked, `outputErrors` is invoked exactly once, with `e`, and the result
is 1. -/
theorem checkModules_load_failure (env : Env W M E C) (p : checkParams)
    (args : List String) (s : State W M E) (e : E)
    (h : loadError env p s.world args = some e) :
    (checkModules env p args s).code = 1 ∧
    compilerCalls (checkModules env p args s).state.trace = compilerCalls s.trace ∧
    compiled (checkModules env p args s).state.trace = compiled s.trace ∧
    reported (checkModules env p args s).state.trace = reported s.trace ++ [e] := by
  obtain ⟨t, calls, ⟨ht, _, _, hc, hr, hcc⟩, hrun⟩ :=
    checkModules_of_loadError env p args s e h
  rw [hrun]
  simp only [outputErrors_trace, ht, compilerCalls_append, compiled_append,
    reported_append, hc, hr, hcc, List.append_nil]
  refine ⟨trivial, ?_, ?_, ?_⟩
  · simp [compilerCalls, Call.onCompiler]
  · simp [compiled]
  · simp [reported]

theorem checkModules_load_failure_witness :
    loadError demoEnv demoBundlePretty demoStart.world ["policies", "missing", "more"]
      = some "open missing: no such file or directory" ∧
    (checkModules demoEnv demoBundlePretty ["policies", "missing", "more"] demoStart).code
      = 1 :=
  ⟨by decide,
   (checkModules_load_failure demoEnv demoBundlePretty ["policies", "missing", "more"]
      demoStart "open missing: no such file or directory" (by decide)).1⟩

/-- C3: when loading succeeds and the compiler does not report failure, `checkModules`
writes nothing to standard output or standard error and never calls `outputErrors`,
whatever the format. -/
theorem checkModules_silent_success (env : Env W M E C) (p : checkParams)
    (args : List String) (s : State W M E) (modules : Modules M)
    (hload : loadingSucceeded env p s.world args = true)
    (hc : compiled (checkModules env p args s).state.trace = compiled s.trace ++ [modules])
    (hf : env.Failed (env.Compile (env.SetErrorLimit env.NewCompiler p.errLimit) modules)
      = false) :
    (checkModules env p args s).state.stdout = s.stdout ∧
    (checkModules env p args s).state.stderr = s.stderr ∧
    reported (checkModules env p args s).state.trace = reported s.trace ∧
    (checkModules env p args s).code = 0 := by
  rw [loadingSucceeded_iff] at hload
  obtain ⟨t, calls, modules', ⟨ht, hout, herr, hcl, hr, _⟩, hrun⟩ :=
    checkModules_of_loaded env p args s hload
  have hcomp : compiled (checkModules env p args s).state.trace
      = compiled s.trace ++ [modules'] := by
    rw [hrun, compileAndReport_compiled, ht, compiled_append, hcl, List.append_nil]
  rw [hcomp] at hc
  have hm : modules' = modules := by simpa using hc
  subst hm
  rw [hrun, compileAndReport_ok env p modules' t hf]
  refine ⟨hout, herr, ?_, rfl⟩
  show reported (t.trace ++ _) = _
  rw [reported_append, ht, reported_append, hr]
  simp [reported]

theorem checkModules_silent_success_witness :
    (checkModules demoEnv demoJSON ["a.rego", "b.rego"] demoStart).state.stdout = [] ∧
    (checkModules demoEnv demoJSON ["a.rego", "b.rego"] demoStart).state.stderr = [] ∧
    (checkModules demoEnv demoJSON ["a.rego", "b.rego"] demoStart).code = 0 :=
  have h := checkModules_silent_success demoEnv demoJSON ["a.rego", "b.rego"] demoStart
    (((∅ : Modules String).insert "a.rego" "package x").insert "b.rego" "package x")
    (by decide) (by rfl) (by decide)
  ⟨h.1, h.2.1, h.2.2.2⟩

/-- C4: when loading succeeds and the compiler reports failure, `checkModules` invokes
`outputErrors` exactly once, with `compiler.Errors` and the configured format: what the
run writes is what `outputErrors(compiler.Errors)` writes, and nothing else. -/
theorem checkModules_compile_failure (env : Env W M E C) (p : checkParams)
    (args : List String) (s : State W M E) (modules : Modules M)
    (hload : loadingSucceeded env p s.world args = true)
    (hc : compiled (checkModules env p args s).state.trace = compiled s.trace ++ [modules])
    (hf : env.Failed (env.Compile (env.SetErrorLimit env.NewCompiler p.errLimit) modules)
      = true) :
    reported (checkModules env p args s).state.trace = reported s.trace ++
      [env.Errors (env.Compile (env.SetErrorLimit env.NewCompiler p.errLimit) modules)] ∧
    (checkModules env p args s).state.stdout = (outputErrors env p
      (env.Errors (env.Compile (env.SetErrorLimit env.NewCompiler p.errLimit) modules))
      s).stdout ∧
    (checkModules env p args s).state.stderr = (outputErrors env p
      (env.Errors (env.Compile (env.SetErrorLimit env.NewCompiler p.errLimit) modules))
      s).stderr ∧
    (checkModules env p args s).code = 1 := by
  rw [loadingSucceeded_iff] at hload
  obtain ⟨t, calls, modules', ⟨ht, hout, herr, hcl, hr, _⟩, hrun⟩ :=
    checkModules_of_loaded env p args s hload
  have hcomp : compiled (checkModules env p args s).state.trace
      = compiled s.trace ++ [modules'] := by
    rw [hrun, compileAndReport_compiled, ht, compiled_append, hcl, List.append_nil]
  rw [hcomp] at hc
  have hm : modules' = modules := by simpa using hc
  subst hm
  rw [hrun, compileAndReport_failed env p modules' t hf]
  refine ⟨?_, ?_, ?_, rfl⟩
  · show reported (outputErrors env p _ _).trace = _
    rw [outputErrors_trace]
    show reported ((t.trace ++ _) ++ _) = _
    rw [reported_append, reported_append, ht, reported_append, hr]
    simp [reported]
  · exact (outputErrors_streams env p _
      { t with trace := t.trace ++ [Call.NewCompiler, Call.SetErrorLimit p.errLimit,
        Call.Compile modules', Call.Failed] } s hout herr).1
  · exact (outputErrors_streams env p _
      { t with trace := t.trace ++ [Call.NewCompiler, Call.SetErrorLimit p.errLimit,
        Call.Compile modules', Call.Failed] } s hout herr).2

theorem checkModules_compile_failure_witness :
    (checkModules demoEnv demoPretty ["a.rego", "broken.rego"] demoStart).state.stdout
      = ["rego_type_error: undefined function\n"] ∧
    (checkModules demoEnv demoPretty ["a.rego", "broken.rego"] demoStart).code = 1 :=
  have h := checkModules_compile_failure demoEnv demoPretty ["a.rego", "broken.rego"]
    demoStart
    (((∅ : Modules String).insert "a.rego" "package x").insert "broken.rego" "package x")
    (by decide) (by rfl) (by decide)
  ⟨h.2.1.trans (by decide), h.2.2.2⟩

/-- C5: under the json format `outputErrors` serialises the single-key mapping
`errors -> err` with empty prefix and two-space indent. On success it writes that text
and a newline to standard output, in one write, and nothing to standard error; on
failure it writes the failure's message and a newline to standard error and nothing to
standard output. Exactly one of the two streams receives non-empty output. -/
theorem outputErrors_json (env : Env W M E C) (p : checkParams) (err : E)
    (s : State W M E) (hf : p.format = checkFormatJSON) :
    (∀ bs, env.MarshalIndent [("errors", err)] "" "  " = Except.ok bs →
      (outputErrors env p err s).stdout = s.stdout ++ [bs ++ "\n"] ∧
      (outputErrors env p err s).stderr = s.stderr) ∧
    (∀ e, env.MarshalIndent [("errors", err)] "" "  " = Except.error e →
      (outputErrors env p err s).stderr = s.stderr ++ [env.Error e ++ "\n"] ∧
      (outputErrors env p err s).stdout = s.stdout) ∧
    Xor' (received s.stdout (outputErrors env p err s).stdout ≠ "")
      (received s.stderr (outputErrors env p err s).stderr ≠ "") := by
  refine ⟨fun bs hm => outputErrors_marshal_ok env p err s bs hf hm,
    fun e hm => (outputErrors_marshal_error env p err s e hf hm).symm, ?_⟩
  cases hm : env.MarshalIndent [("errors", err)] "" "  " with
  | ok bs =>
    obtain ⟨h1, h2⟩ := outputErrors_marshal_ok env p err s bs hf hm
    rw [h1, h2]
    refine Or.inl ⟨?_, ?_⟩
    · simpa [received, String.join] using append_newline_ne_empty bs
    · simp [received, String.join]
  | error e =>
    obtain ⟨h1, h2⟩ := outputErrors_marshal_error env p err s e hf hm
    rw [h1, h2]
    refine Or.inr ⟨?_, ?_⟩
    · simpa [received, String.join] using append_newline_ne_empty (env.Error e)
    · simp [received, String.join]

theorem outputErrors_json_witness :
    demoJSON.format = checkFormatJSON ∧
    (outputErrors demoEnv demoJSON "rego_parse_error" demoStart).stdout
      = demoStart.stdout ++ ["\x7b\n  \"errors\": \"rego_parse_error\"\n\x7d" ++ "\n"] ∧
    (outputErrors demoEnv demoJSON "rego_parse_error" demoStart).stderr
      = demoStart.stderr :=
  ⟨by decide,
   (outputErrors_json demoEnv demoJSON "rego_parse_error" demoStart (by decide)).1
    "\x7b\n  \"errors\": \"rego_parse_error\"\n\x7d" (by rfl)⟩

/-- C6: under the pretty format, and under every format other than `json`,
`outputErrors` writes the default text of the error value and a newline to standard
output, in one write, and nothing to standard error. -/
theorem outputErrors_pretty (env : Env W M E C) (p : checkParams) (err : E)
    (s : State W M E) (hf : p.format ≠ checkFormatJSON) :
    (outputErrors env p err s).stdout = s.stdout ++ [env.Error err ++ "\n"] ∧
    (outputErrors env p err s).stderr = s.stderr :=
  outputErrors_default env p err s hf

theorem outputErrors_pretty_witness :
    (outputErrors demoEnv demoPretty "rego_parse_error" demoStart).stdout
      = ["rego_parse_error\n"] ∧
    (outputErrors demoEnv demoPretty "rego_parse_error" demoStart).stderr = [] :=
  outputErrors_pretty demoEnv demoPretty "rego_parse_error" demoStart (by decide)

/-- C7: in bundle mode, when every path loads, the collection handed to the compiler has
as keys exactly the module paths of the loaded bundles, and each key maps to the parsed
module of the last module file carrying that path (bundles in argument order, module
files in bundle order). Nothing is reported for a collision: the only report of the run
is that of the compiler's errors, and without them nothing is written. -/
theorem checkModules_bundle_collection (env : Env W M E C) (p : checkParams)
    (args : List String) (s : State W M E) (bs : List (Bundle M))
    (hb : p.bundleMode = true)
    (h : loadAllBundles env s.world args = bs.map Except.ok) :
    ∃ modules : Modules M,
      compiled (checkModules env p args s).state.trace = compiled s.trace ++ [modules] ∧
      (∀ k, k ∈ modules ↔ ∃ b ∈ bs, ∃ mf ∈ b.Modules, mf.Path = k) ∧
      (∀ k v, modules.lookup k = some v ↔
        ∃ pre mf post, allModuleFiles bs = pre ++ mf :: post ∧
          mf.Path = k ∧ mf.Parsed = v ∧ ∀ y ∈ post, y.Path ≠ k) ∧
      reported (checkModules env p args s).state.trace = reported s.trace ++
        (if env.Failed (env.Compile (env.SetErrorLimit env.NewCompiler p.errLimit) modules)
         then [env.Errors
           (env.Compile (env.SetErrorLimit env.NewCompiler p.errLimit) modules)]
         else []) ∧
      (env.Failed (env.Compile (env.SetErrorLimit env.NewCompiler p.errLimit) modules)
          = false →
        (checkModules env p args s).state.stdout = s.stdout ∧
        (checkModules env p args s).state.stderr = s.stderr ∧
        (checkModules env p args s).code = 0) := by
  have hrun := checkModules_bundle_ok env p args s bs hb h
  refine ⟨assignAll ModuleFile.Path ModuleFile.Parsed (allModuleFiles bs) ∅, ?_, ?_, ?_,
    ?_, ?_⟩
  · rw [hrun, compileAndReport_compiled]
    show compiled (s.trace ++ _) ++ _ = _
    rw [compiled_append, compiled_asBundle, List.append_nil]
  · intro k
    rw [mem_assignAll]
    simp only [Finmap.not_mem_empty, or_false, allModuleFiles, List.mem_flatten,
      List.mem_map]
    constructor
    · rintro ⟨mf, ⟨l, ⟨b, hb', rfl⟩, hmf⟩, hk⟩
      exact ⟨b, hb', mf, hmf, hk⟩
    · rintro ⟨b, hb', mf, hmf, hk⟩
      exact ⟨mf, ⟨_, ⟨b, hb', rfl⟩, hmf⟩, hk⟩
  · intro k v
    rw [lookup_assignAll]
    simp
  · rw [hrun]
    cases hf : env.Failed (env.Compile (env.SetErrorLimit env.NewCompiler p.errLimit)
        (assignAll ModuleFile.Path ModuleFile.Parsed (allModuleFiles bs) ∅))
    · rw [compileAndReport_ok env p _ _ hf]
      show reported ((s.trace ++ _) ++ _) = _
      rw [reported_append, reported_append, reported_asBundle]
      simp [reported]
    · rw [compileAndReport_failed env p _ _ hf]
      show reported (outputErrors env p _ _).trace = _
      rw [outputErrors_trace]
      show reported (((s.trace ++ _) ++ _) ++ _) = _
      rw [reported_append, reported_append, reported_append, reported_asBundle]
      simp [reported]
  · intro hf
    rw [hrun, compileAndReport_ok env p _ _ hf]
    exact ⟨rfl, rfl, rfl⟩

theorem checkModules_bundle_collection_witness :
    (compiled (checkModules demoEnv demoBundlePretty ["x", "y"] demoStart).state.trace).map
        (fun modules => (modules.lookup "common.rego", modules.lookup "x/a.rego",
          decide ("z/a.rego" ∈ modules)))
      = [(some "package y", some "package a", false)] := by
  obtain ⟨modules, hc, hkeys, hlast, _, _⟩ :=
    checkModules_bundle_collection demoEnv demoBundlePretty ["x", "y"] demoStart
      [{ Modules := [{ Path := "x/a.rego", Parsed := "package a" },
                     { Path := "common.rego", Parsed := "package x" }] },
       { Modules := [{ Path := "y/a.rego", Parsed := "package a" },
                     { Path := "common.rego", Parsed := "package y" }] }]
      (by decide) (by rfl)
  have h1 : modules.lookup "common.rego" = some "package y" :=
    (hlast _ _).2 ⟨[⟨"x/a.rego", "package a"⟩, ⟨"common.rego", "package x"⟩,
      ⟨"y/a.rego", "package a"⟩], ⟨"common.rego", "package y"⟩, [], rfl, rfl, rfl,
      by simp⟩
  have h2 : modules.lookup "x/a.rego" = some "package a" :=
    (hlast _ _).2 ⟨[], ⟨"x/a.rego", "package a"⟩, [⟨"common.rego", "package x"⟩,
      ⟨"y/a.rego", "package a"⟩, ⟨"common.rego", "package y"⟩], rfl, rfl, rfl,
      by simp⟩
  have h3 : "z/a.rego" ∉ modules := by
    rw [hkeys]
    simp
  have hs : compiled demoStart.trace = ([] : List (Modules String)) := rfl
  rw [hc, hs]
  simp [h1, h2, h3]

/-- C8: in bundle mode, when `i` is the smallest index whose load fails, exactly the
paths up to and including `i` are loaded, in argument order; the error reported is that
of path `i`; the compiler is never used; and the run writes only the report of that
error. -/
theorem checkModules_first_failing_bundle (env : Env W M E C) (p : checkParams)
    (args : List String) (s : State W M E) (i : Nat) (e : E)
    (hb : p.bundleMode = true)
    (hfail : (loadAllBundles env s.world args)[i]? = some (Except.error e))
    (hmin : ∀ j < i, ∃ b, (loadAllBundles env s.world args)[j]? = some (Except.ok b)) :
    bundlePaths (checkModules env p args s).state.trace
      = bundlePaths s.trace ++ args.take (i + 1) ∧
    reported (checkModules env p args s).state.trace = reported s.trace ++ [e] ∧
    compilerCalls (checkModules env p args s).state.trace = compilerCalls s.trace ∧
    compiled (checkModules env p args s).state.trace = compiled s.trace ∧
    (checkModules env p args s).state.stdout = (outputErrors env p e s).stdout ∧
    (checkModules env p args s).state.stderr = (outputErrors env p e s).stderr ∧
    (checkModules env p args s).code = 1 := by
  have hsplit : ∃ (bs : List (Bundle M)) (post : List (Except E (Bundle M))),
      loadAllBundles env s.world args = bs.map Except.ok ++ Except.error e :: post ∧
      bs.length = i := by
    rcases loads_split (loadAllBundles env s.world args) with
      ⟨bs, hl, _⟩ | ⟨bs, e', post, hl, _⟩
    · rw [hl, List.getElem?_map] at hfail
      cases hbi : bs[i]? with
      | none => simp [hbi] at hfail
      | some b => simp [hbi] at hfail
    · have hmid : (bs.map (Except.ok : Bundle M → Except E (Bundle M))
          ++ Except.error e' :: post)[bs.length]? = some (Except.error e') := by
        rw [List.getElem?_append_right (by simp)]
        simp
      rcases Nat.lt_trichotomy bs.length i with hlt | heq | hgt
      · obtain ⟨b, hj⟩ := hmin bs.length hlt
        rw [hl, hmid] at hj
        cases hj
      · rw [hl, ← heq, hmid] at hfail
        cases hfail
        exact ⟨bs, post, hl, heq⟩
      · rw [hl, List.getElem?_append_left (by simpa using hgt), List.getElem?_map] at hfail
        cases hbi : bs[i]? with
        | none => simp [hbi] at hfail
        | some b => simp [hbi] at hfail
  obtain ⟨bs, post, hl, hlen⟩ := hsplit
  have hrun := checkModules_bundle_error env p args s bs e post hb hl
  rw [hlen] at hrun
  rw [hrun]
  refine ⟨?_, ?_, ?_, ?_, ?_, ?_, rfl⟩
  · show bundlePaths (outputErrors env p _ _).trace = _
    rw [outputErrors_trace]
    show bundlePaths ((s.trace ++ _) ++ _) = _
    rw [bundlePaths_append, bundlePaths_append, bundlePaths_asBundle]
    simp [bundlePaths]
  · show reported (outputErrors env p _ _).trace = _
    rw [outputErrors_trace]
    show reported ((s.trace ++ _) ++ _) = _
    rw [reported_append, reported_append, reported_asBundle]
    simp [reported]
  · show compilerCalls (outputErrors env p _ _).trace = _
    rw [outputErrors_trace]
    show compilerCalls ((s.trace ++ _) ++ _) = _
    rw [compilerCalls_append, compilerCalls_append, compilerCalls_asBundle]
    simp [compilerCalls, Call.onCompiler]
  · show compiled (outputErrors env p _ _).trace = _
    rw [outputErrors_trace]
    show compiled ((s.trace ++ _) ++ _) = _
    rw [compiled_append, compiled_append, compiled_asBundle]
    simp [compiled]
  · exact (outputErrors_streams env p e
      { s with world := worldAfter env s.world (args.take (i + 1)),
               trace := s.trace ++ (args.take (i + 1)).map Call.AsBundle } s rfl rfl).1
  · exact (outputErrors_streams env p e
      { s with world := worldAfter env s.world (args.take (i + 1)),
               trace := s.trace ++ (args.take (i + 1)).map Call.AsBundle } s rfl rfl).2

theorem checkModules_first_failing_bundle_witness :
    bundlePaths (checkModules demoEnv demoBundlePretty
        ["x", "missing", "y", "missing"] demoStart).state.trace = ["x", "missing"] ∧
    reported (checkModules demoEnv demoBundlePretty
        ["x", "missing", "y", "missing"] demoStart).state.trace
      = ["open missing: no such file or directory"] :=
  have h := checkModules_first_failing_bundle demoEnv demoBundlePretty
    ["x", "missing", "y", "missing"] demoStart 1
    "open missing: no such file or directory" (by decide) (by rfl)
    (by
      intro j hj
      have h0 : j = 0 := by omega
      subst h0
      exact ⟨_, rfl⟩)
  ⟨h.1, h.2.1⟩

/-- C9, as stated, fails: under the json format a load error is serialised, so standard
output does not hold the error's default text and differs from the pretty output. -/
theorem load_error_json_differs :
    loadError demoEnv demoJSON demoStart.world ["missing"]
      = some "open missing: no such file or directory" ∧
    (checkModules demoEnv demoJSON ["missing"] demoStart).state.stdout
      ≠ demoStart.stdout ++
          [demoEnv.Error "open missing: no such file or directory" ++ "\n"] ∧
    (checkModules demoEnv demoJSON ["missing"] demoStart).state.stdout
      ≠ (checkModules demoEnv demoPretty ["missing"] demoStart).state.stdout := by
  decide

/-- C9, amended: when loading fails, in either mode, the run writes what `outputErrors`
writes for the load error under the configured format: the error's default text and a
newline on standard output under every format other than `json`; under `json` the
serialised mapping `errors -> err` and a newline on standard output, or, when
serialisation fails, the failure's message and a newline on standard error. -/
theorem checkModules_load_error_output (env : Env W M E C) (p : checkParams)
    (args : List String) (s : State W M E) (e : E)
    (h : loadError env p s.world args = some e) :
    (checkModules env p args s).state.stdout = (outputErrors env p e s).stdout ∧
    (checkModules env p args s).state.stderr = (outputErrors env p e s).stderr ∧
    (p.format ≠ checkFormatJSON →
      (checkModules env p args s).state.stdout = s.stdout ++ [env.Error e ++ "\n"] ∧
      (checkModules env p args s).state.stderr = s.stderr) ∧
    (p.format = checkFormatJSON →
      ∀ bs, env.MarshalIndent [("errors", e)] "" "  " = Except.ok bs →
        (checkModules env p args s).state.stdout = s.stdout ++ [bs ++ "\n"] ∧
        (checkModules env p args s).state.stderr = s.stderr) ∧
    (p.format = checkFormatJSON →
      ∀ e', env.MarshalIndent [("errors", e)] "" "  " = Except.error e' →
        (checkModules env p args s).state.stdout = s.stdout ∧
        (checkModules env p args s).state.stderr = s.stderr ++ [env.Error e' ++ "\n"]) := by
  obtain ⟨t, calls, ⟨_, hout, herr, _, _, _⟩, hrun⟩ :=
    checkModules_of_loadError env p args s e h
  have h1 : (checkModules env p args s).state.stdout = (outputErrors env p e s).stdout := by
    rw [hrun]; exact (outputErrors_streams env p e t s hout herr).1
  have h2 : (checkModules env p args s).state.stderr = (outputErrors env p e s).stderr := by
    rw [hrun]; exact (outputErrors_streams env p e t s hout herr).2
  rw [h1, h2]
  exact ⟨rfl, rfl, fun hf => outputErrors_default env p e s hf,
    fun hf bs hm => outputErrors_marshal_ok env p e s bs hf hm,
    fun hf e' hm => outputErrors_marshal_error env p e s e' hf hm⟩

theorem checkModules_load_error_output_witness :
    loadError demoEnv demoJSON demoStart.world ["a.rego", "missing"]
      = some "open missing: no such file or directory" ∧
    (checkModules demoEnv demoJSON ["a.rego", "missing"] demoStart).state.stdout
      = (outputErrors demoEnv demoJSON "open missing: no such file or directory"
          demoStart).stdout :=
  ⟨by decide,
   (checkModules_load_error_output demoEnv demoJSON ["a.rego", "missing"] demoStart
      "open missing: no such file or directory" (by decide)).1⟩

/-- C10: in filtered mode, when the load succeeds and the returned modules have pairwise
distinct names, the collection handed to the compiler has exactly the entries
`Name -> Parsed` of the returned modules, and the whole run (collection, exit status,
reports, output) is the same whatever the order in which the result is iterated. So
only a shared name lets the iteration order change which module is kept. -/
theorem checkModules_filtered_collection (env : Env W M E C) (p : checkParams)
    (args : List String) (s : State W M E) (result : Result M)
    (hb : p.bundleMode = false)
    (h : (env.Filtered s.world args { Ignore := p.ignore }).1 = Except.ok result)
    (hn : (result.Modules.map RegoFile.Name).Nodup) :
    (∃ modules : Modules M,
      compiled (checkModules env p args s).state.trace = compiled s.trace ++ [modules] ∧
      ∀ k v, modules.lookup k = some v ↔
        ∃ m ∈ result.Modules, m.Name = k ∧ m.Parsed = v) ∧
    (∀ (F : W → List String → loaderFilter → Except E (Result M) × W)
        (result' : Result M),
      result'.Modules.Perm result.Modules →
      F s.world args { Ignore := p.ignore }
        = (Except.ok result', (env.Filtered s.world args { Ignore := p.ignore }).2) →
      checkModules { env with Filtered := F } p args s = checkModules env p args s) := by
  have hrun := checkModules_filtered_ok env p args s result hb h
  refine ⟨⟨assignAll RegoFile.Name RegoFile.Parsed result.Modules ∅, ?_, ?_⟩, ?_⟩
  · rw [hrun, compileAndReport_compiled]
    show compiled (s.trace ++ _) ++ _ = _
    rw [compiled_append]
    simp [compiled]
  · intro k v
    exact lookup_assignAll_nodup RegoFile.Name RegoFile.Parsed result.Modules hn k v
  · intro F result' hperm hF
    have hF1 : (({ env with Filtered := F } : Env W M E C).Filtered s.world args
        { Ignore := p.ignore }).1 = Except.ok result' := by
      show (F s.world args { Ignore := p.ignore }).1 = _
      rw [hF]
    have hrun' := checkModules_filtered_ok { env with Filtered := F } p args s result'
      hb hF1
    have hF2 : (({ env with Filtered := F } : Env W M E C).Filtered s.world args
        { Ignore := p.ignore }).2 = (env.Filtered s.world args { Ignore := p.ignore }).2 := by
      show (F s.world args { Ignore := p.ignore }).2 = _
      rw [hF]
    have hm : assignAll RegoFile.Name RegoFile.Parsed result'.Modules (∅ : Modules M)
        = assignAll RegoFile.Name RegoFile.Parsed result.Modules ∅ :=
      (assignAll_perm RegoFile.Name RegoFile.Parsed result.Modules result'.Modules
        hperm.symm hn).symm
    rw [hrun', hrun, hF2, hm]
    rfl

theorem checkModules_filtered_collection_witness :
    checkModules
        { demoEnv with
          Filtered := fun _ _ _ =>
            (Except.ok { Modules := [{ Name := "broken.rego", Parsed := "package x" },
                                     { Name := "a.rego", Parsed := "package x" }] }, 1) }
        demoPretty ["a.rego", "broken.rego"] demoStart
      = checkModules demoEnv demoPretty ["a.rego", "broken.rego"] demoStart :=
  (checkModules_filtered_collection demoEnv demoPretty ["a.rego", "broken.rego"] demoStart
    { Modules := [{ Name := "a.rego", Parsed := "package x" },
                  { Name := "broken.rego", Parsed := "package x" }] }
    (by decide) (by rfl) (by decide)).2 _
    { Modules := [{ Name := "broken.rego", Parsed := "package x" },
                  { Name := "a.rego", Parsed := "package x" }] }
    (List.Perm.swap _ _ _) (by rfl)

end Claims

end Check
